import Mathlib

/-!
Verification of the highlight-checker backend core (src/main.py).

The development shallowly embeds the JSON-like document model the Python code
works on, and transcribes the core functions:

* `_to_int`, `_lookup`, `_collect_players`  — stat-line extraction
* `_fallback_leaders`                        — leader-based fallback
* `_match_team_to_abbr`, `_series_before_game` with the two regexes
  `_SERIES_RE` / `_TIED_RE`                  — series reconstruction
* the game-type classification and the badge block of `_evaluate_games`

Fallible dynamic behaviour (KeyError / TypeError / AttributeError on
unexpected shapes) is made explicit with `Except PyErr`.
-/

/- A JSON-like Python value (the shapes flowing through main.py), mutual
with its list and key-value-list forms so that decidable equality can be
derived. -/
mutual

/-- One JSON-like Python value. -/
inductive JVal where
  | null
  | b (x : Bool)
  | i (x : Int)
  | s (x : String)
  | arr (xs : JList)
  | obj (kvs : JKVs)
deriving DecidableEq, Repr

inductive JList where
  | nil
  | cons (hd : JVal) (tl : JList)
deriving DecidableEq, Repr

inductive JKVs where
  | nil
  | cons (k : String) (v : JVal) (tl : JKVs)
deriving DecidableEq, Repr

end

/-- Dynamic errors the Python code can raise on unexpected shapes. -/
inductive PyErr where
  | typeError
  | keyError
  | attributeError
  | indexError
deriving DecidableEq, Repr

def JList.toList : JList → List JVal
  | .nil => []
  | .cons h t => h :: JList.toList t

def jlOf : List JVal → JList
  | [] => .nil
  | x :: xs => .cons x (jlOf xs)

def JKVs.find? : JKVs → String → Option JVal
  | .nil, _ => none
  | .cons k v t, key => if k = key then some v else JKVs.find? t key

def JKVs.keys : JKVs → List String
  | .nil => []
  | .cons k _ t => k :: JKVs.keys t

/-- Python truthiness of a JSON-like value. -/
def truthy : JVal → Bool
  | .null => false
  | .b x => x
  | .i x => x != 0
  | .s str => str != ""
  | .arr .nil => false
  | .arr (.cons _ _) => true
  | .obj .nil => false
  | .obj (.cons _ _ _) => true

/-- Python `v.get(key, default)`: only dicts have `.get`. -/
def jget (v : JVal) (key : String) (dflt : JVal) : Except PyErr JVal :=
  match v with
  | .obj kvs => .ok ((JKVs.find? kvs key).getD dflt)
  | _ => .error .attributeError

/-- Python `v[key]` with a string key. -/
def jindexS (v : JVal) (key : String) : Except PyErr JVal :=
  match v with
  | .obj kvs =>
      match JKVs.find? kvs key with
      | some x => .ok x
      | none => .error .keyError
  | _ => .error .typeError

/-- Python `v[0]`.  A dict raises KeyError (the integer key 0 is never among
the string keys of a JSON object); non-subscriptable values raise TypeError. -/
def jindex0 (v : JVal) : Except PyErr JVal :=
  match v with
  | .arr xs =>
      match xs.toList with
      | x :: _ => .ok x
      | [] => .error .indexError
  | .s str =>
      match str.data with
      | c :: _ => .ok (.s (String.mk [c]))
      | [] => .error .indexError
  | .obj _ => .error .keyError
  | _ => .error .typeError

/-- Python iteration `for x in v`: lists yield elements, strings yield
1-character strings, dicts yield their keys. -/
def jiter (v : JVal) : Except PyErr (List JVal)
  := match v with
  | .arr xs => .ok xs.toList
  | .s str => .ok (str.data.map fun c => .s (String.mk [c]))
  | .obj kvs => .ok ((JKVs.keys kvs).map JVal.s)
  | _ => .error .typeError

def JKVs.size : JKVs → Nat
  | .nil => 0
  | .cons _ _ t => 1 + JKVs.size t

/-- Python `len(v)`. -/
def pyLen (v : JVal) : Except PyErr Nat :=
  match v with
  | .arr xs => .ok xs.toList.length
  | .s str => .ok str.length
  | .obj kvs => .ok (JKVs.size kvs)
  | _ => .error .typeError

/-- Python `v[i]` for a nonnegative in-range integer index. -/
def jindexNat (v : JVal) (i : Nat) : Except PyErr JVal :=
  match v with
  | .arr xs =>
      match xs.toList.get? i with
      | some x => .ok x
      | none => .error .indexError
  | .s str =>
      match str.data.get? i with
      | some c => .ok (.s (String.mk [c]))
      | none => .error .indexError
  | .obj _ => .error .keyError
  | _ => .error .typeError

def digitsToNat? (cs : List Char) : Option Nat :=
  if cs.isEmpty then none
  else if cs.all Char.isDigit then
    some (cs.foldl (fun a c => a * 10 + (c.toNat - 48)) 0)
  else none

/-- Whitespace as stripped by Python `int(str)`. -/
def isWsChar (c : Char) : Bool :=
  c == ' ' || c == '\t' || c == '\n' || c == '\r' || c.toNat == 11 || c.toNat == 12

/-- Python `int(s)` on a string (ASCII digits, optional sign, surrounding
whitespace), `none` when it would raise ValueError. -/
def strToInt? (s : String) : Option Int :=
  let cs := (s.data.dropWhile isWsChar).reverse.dropWhile isWsChar |>.reverse
  match cs with
  | '-' :: rest => (digitsToNat? rest).map fun n => -(n : Int)
  | '+' :: rest => (digitsToNat? rest).map fun n => (n : Int)
  | rest => (digitsToNat? rest).map fun n => (n : Int)

/-- Source `_to_int`: best-effort int coercion, 0 on failure. -/
def _to_int : JVal → Int
  | .i x => x
  | .b x => if x then 1 else 0
  | .s str => (strToInt? str).getD 0
  | _ => 0

/-- Python `str.upper` on one ASCII character. -/
def chUp (c : Char) : Char :=
  if 97 ≤ c.toNat ∧ c.toNat ≤ 122 then Char.ofNat (c.toNat - 32) else c

/-- Python `str.lower` on one ASCII character. -/
def chLow (c : Char) : Char :=
  if 65 ≤ c.toNat ∧ c.toNat ≤ 90 then Char.ofNat (c.toNat + 32) else c

def pyUpper (s : String) : String := String.mk (s.data.map chUp)

def pyLower (s : String) : String := String.mk (s.data.map chLow)

/-- Left-to-right effectful map, mirroring a Python `for` loop that appends
to an output list and aborts on the first raised error. -/
def mapME (f : α → Except PyErr β) : List α → Except PyErr (List β)
  | [] => .ok []
  | x :: xs => do
      let y ← f x
      let ys ← mapME f xs
      .ok (y :: ys)

/-- Left-to-right effectful fold, mirroring a Python `for` loop that updates
an accumulator and aborts on the first raised error. -/
def foldME (f : β → α → Except PyErr β) : β → List α → Except PyErr β
  | b, [] => .ok b
  | b, x :: xs => do
      let b' ← f b x
      foldME f b' xs

example : _to_int (.s " -12 ") = -12 := by decide
example : _to_int (.s "3a") = 0 := by decide
example : pyUpper "ptS" = "PTS" := by decide
example : pyLower "PTS" = "pts" := by decide

/-- A normalized player stat line (`{name, pts, reb, ast}` in main.py).
The name is kept as a raw JSON value: the source takes whatever
`displayName` holds, without coercion. -/
structure Player where
  name : JVal
  pts : Int
  reb : Int
  ast : Int
deriving DecidableEq, Repr

/-- Long form of a recognized category abbreviation, i.e. the inline dict
in `_lookup` (which is only ever applied to "pts", "reb", "ast"). -/
def longForm (w : String) : String :=
  if w = "pts" then "points"
  else if w = "reb" then "rebounds"
  else if w = "ast" then "assists"
  else ""

def lookupGo (w : String) : List String → Nat → Int
  | [], _ => -1
  | n :: rest, idx =>
      if pyLower n = w ∨ pyLower n = longForm w then (idx : Int)
      else lookupGo w rest (idx + 1)

/-- Source `_lookup`: index of the first header whose lowercase form is the
wanted abbreviation or its long form; -1 when absent. -/
def _lookup (names : List String) (wanted : String) : Int :=
  lookupGo (pyLower wanted) names 0

/-- The inner `_safe` of `_collect_players` (Format A): source line
`_to_int(raw[i]) if 0 <= i < len(raw) else 0`.  Python short-circuits, so
`len(raw)` (and hence its TypeError) is only reached for `0 <= i`. -/
def _safe (raw : JVal) (i : Int) : Except PyErr Int :=
  if i < 0 then .ok 0
  else do
    let len ← pyLen raw
    if i < (len : Int) then do
      let v ← jindexNat raw i.toNat
      .ok (_to_int v)
    else .ok 0

/-- `c.upper()` on an iterated header entry: only strings have `.upper`. -/
def asStrUpper : JVal → Except PyErr String
  | .s str => .ok (pyUpper str)
  | _ => .error .attributeError

/-- `x.get("athlete", {}).get("displayName", "Unknown")` as in both formats
of `_collect_players`. -/
def athName (x : JVal) : Except PyErr JVal := do
  let a ← jget x "athlete" (.obj .nil)
  jget a "displayName" (.s "Unknown")

/-- One athlete of Format A: `raw = ath.get("stats", [])` and the appended
dict (name first, then the three `_safe` reads). -/
def collectAAth (idx_pts idx_reb idx_ast : Int) (ath : JVal) : Except PyErr Player := do
  let raw ← jget ath "stats" (.arr .nil)
  let nm ← athName ath
  let pts ← _safe raw idx_pts
  let reb ← _safe raw idx_reb
  let ast ← _safe raw idx_ast
  .ok ⟨nm, pts, reb, ast⟩

/-- Format A body of `_collect_players` (the roster block with `names`
header and positionally aligned `athletes`). -/
def collectA (block : JKVs) : Except PyErr (List Player) := do
  let namesV ← jget (.obj block) "names" (.arr .nil)
  let colsJ ← jiter namesV
  let cols ← mapME asStrUpper colsJ
  let idx_pts := _lookup cols "pts"
  let idx_reb := _lookup cols "reb"
  let idx_ast := _lookup cols "ast"
  let athsV ← jindexS (.obj block) "athletes"
  let aths ← jiter athsV
  mapME (collectAAth idx_pts idx_reb idx_ast) aths

/-- One category update in Format B: Python
`key = (cat.get("abbreviation") or cat.get("name", "")).upper()` and the
three `if key in (..)` branches writing into `vals`. -/
def catApply (vals : Int × Int × Int) (cat : JVal) : Except PyErr (Int × Int × Int) := do
  let abbr ← jget cat "abbreviation" .null
  let ks ← if truthy abbr then pure abbr else jget cat "name" (.s "")
  let key ← asStrUpper ks
  if key = "PTS" ∨ key = "POINTS" then do
    let v ← jget cat "value" .null
    .ok (_to_int v, vals.2.1, vals.2.2)
  else if key = "REB" ∨ key = "REBOUNDS" then do
    let v ← jget cat "value" .null
    .ok (vals.1, _to_int v, vals.2.2)
  else if key = "AST" ∨ key = "ASSISTS" then do
    let v ← jget cat "value" .null
    .ok (vals.1, vals.2.1, _to_int v)
  else .ok vals

/-- One player entry in Format B of `_collect_players`. -/
def collectBPly (ply : JVal) : Except PyErr Player := do
  let statsV ← jget ply "statistics" (.arr .nil)
  let cats ← jiter statsV
  let vals ← foldME catApply (0, 0, 0) cats
  let nm ← athName ply
  .ok ⟨nm, vals.1, vals.2.1, vals.2.2⟩

/-- The `elif isinstance(roster, list)` arm (Format B), else no entries. -/
def rosterElse : JVal → Except PyErr (List Player)
  | .arr xs => mapME collectBPly xs.toList
  | _ => .ok []

/-- Dispatch for one roster of `_collect_players`: the Format A guard
`isinstance(roster, dict) and roster.get("statistics") and
isinstance(roster["statistics"][0], dict) and
roster["statistics"][0].get("athletes")`, short-circuit included, with
fallthrough to the Format B arm. -/
def collectRoster (roster : JVal) : Except PyErr (List Player) :=
  match roster with
  | .obj kvs =>
      match JKVs.find? kvs "statistics" with
      | some st =>
          if truthy st then do
            let first ← jindex0 st
            match first with
            | .obj block =>
                if truthy ((JKVs.find? block "athletes").getD .null) then collectA block
                else rosterElse roster
            | _ => rosterElse roster
          else rosterElse roster
      | none => rosterElse roster
  | _ => rosterElse roster

/-- Source `_collect_players`: all rosters' players concatenated in order. -/
def _collect_players (boxscore : JVal) : Except PyErr (List Player) := do
  let pv ← jget boxscore "players" (.arr .nil)
  let rosters ← jiter pv
  let lss ← mapME collectRoster rosters
  .ok lss.flatten

/-- A recognized leader category. -/
inductive Cat where
  | pts
  | reb
  | ast
deriving DecidableEq, Repr

/-- `mapping.get(leader.get("abbreviation"))` of `_fallback_leaders`:
unhashable keys (lists, dicts) raise TypeError, unknown hashables miss. -/
def mappingGet : JVal → Except PyErr (Option Cat)
  | .arr _ => .error .typeError
  | .obj _ => .error .typeError
  | .s str =>
      .ok (if str = "PTS" then some .pts
           else if str = "REB" then some .reb
           else if str = "AST" then some .ast
           else none)
  | _ => .ok none

def setCat (p : Player) (c : Cat) (v : Int) : Player :=
  match c with
  | .pts => { p with pts := v }
  | .reb => { p with reb := v }
  | .ast => { p with ast := v }

def updateFirst : List Player → JVal → Cat → Int → List Player
  | [], _, _, _ => []
  | p :: rest, nm, c, v =>
      if p.name == nm then setCat p c v :: rest
      else p :: updateFirst rest nm c v

/-- The find-or-append-then-set step of `_fallback_leaders`:
`entry = next((p for p in out if p["name"] == name), None)`, append a fresh
zero entry when absent, then `entry[cat] = value`. -/
def addLeader (out : List Player) (nm : JVal) (c : Cat) (v : Int) : List Player :=
  if out.any (fun p => p.name == nm) then updateFirst out nm c v
  else out ++ [setCat ⟨nm, 0, 0, 0⟩ c v]

/-- One ranked entry of a leader group in `_fallback_leaders`. -/
def procEntry (c : Cat) (out : List Player) (l : JVal) : Except PyErr (List Player) := do
  let ath ← jget l "athlete" (.obj .nil)
  let nm ← jget ath "displayName" .null
  let v ← jget l "value" .null
  .ok (addLeader out nm c (_to_int v))

/-- One leader group of `_fallback_leaders` (skipped unless its
abbreviation maps to pts/reb/ast). -/
def procGroup (out : List Player) (leader : JVal) : Except PyErr (List Player) := do
  let abbr ← jget leader "abbreviation" .null
  let catO ← mappingGet abbr
  match catO with
  | none => .ok out
  | some c => do
      let lsV ← jget leader "leaders" (.arr .nil)
      let ls ← jiter lsV
      foldME (procEntry c) out ls

/-- Source `_fallback_leaders`. -/
def _fallback_leaders (comp : JVal) : Except PyErr (List Player) := do
  let lv ← jget comp "leaders" (.arr .nil)
  let groups ← jiter lv
  foldME procGroup [] groups

/-- Team identity as read by `_match_team_to_abbr`. -/
structure Team where
  displayName : String
  shortDisplayName : String
  name : String
  abbreviation : String
deriving DecidableEq, Repr

/-- One competitor of a contest (`c["team"]`, truthiness of
`c.get("winner")`). -/
structure Competitor where
  team : Team
  winner : Bool
deriving DecidableEq, Repr

/-- Source `_match_team_to_abbr`: first competitor any of whose four
lowered names equals the lowered team text wins; fallback is the raw
team text itself. -/
def _match_team_to_abbr (team_str : String) : List Competitor → String
  | [] => team_str
  | c :: rest =>
      if pyLower team_str ∈
          [pyLower c.team.displayName, pyLower c.team.shortDisplayName,
           pyLower c.team.name, pyLower c.team.abbreviation] then
        c.team.abbreviation
      else _match_team_to_abbr team_str rest

/- Embedding of the two anchored regex matches.

`_SERIES_RE = ^(?P<team>.+?)\s+(?P<verb>leads|wins)\s+series\s+(?P<wins>\d+)-(?P<losses>\d+)`
(case-insensitive, used with `.match`, so anchored at the start, trailing
text allowed).  `.` excludes newline; `.+?` is lazy, so the shortest team
prefix that lets the rest match wins; each `\s+` and `\d+` is greedy, and
since whitespace can start neither verb nor "series" nor a digit, greedy
runs need no backtracking. -/

/-- Match a lowercase literal case-insensitively, returning the rest. -/
def stripCI : List Char → List Char → Option (List Char)
  | [], cs => some cs
  | _ :: _, [] => none
  | p :: ps, c :: cs => if chLow c = p then stripCI ps cs else none

/-- `\s+`: at least one whitespace character, consumed greedily. -/
def ws1 : List Char → Option (List Char)
  | [] => none
  | c :: cs => if isWsChar c then some (cs.dropWhile isWsChar) else none

/-- `\d+`: a greedy nonempty digit run, returned as a number. -/
def digits1 (cs : List Char) : Option (Nat × List Char) :=
  let ds := cs.takeWhile Char.isDigit
  if ds.isEmpty then none
  else some (ds.foldl (fun a c => a * 10 + (c.toNat - 48)) 0, cs.dropWhile Char.isDigit)

/-- The part of `_SERIES_RE` after the team capture:
`\s+(leads|wins)\s+series\s+(\d+)-(\d+)`; yields the verb as captured
(original case) and the two numbers. -/
def seriesRest (cs : List Char) : Option (String × Nat × Nat) := do
  let cs1 ← ws1 cs
  let (vcs, cs2) ←
    match stripCI ['l', 'e', 'a', 'd', 's'] cs1 with
    | some rest => some (cs1.take 5, rest)
    | none =>
        match stripCI ['w', 'i', 'n', 's'] cs1 with
        | some rest => some (cs1.take 4, rest)
        | none => none
  let cs3 ← ws1 cs2
  let cs4 ← stripCI ['s', 'e', 'r', 'i', 'e', 's'] cs3
  let cs5 ← ws1 cs4
  let (w, cs6) ← digits1 cs5
  match cs6 with
  | '-' :: cs7 => do
      let (l, _) ← digits1 cs7
      some (String.mk vcs, w, l)
  | _ => none

/-- Lazy scan for the team capture: grow the (newline-free, nonempty) team
prefix one character at a time and take the first split whose tail matches
the rest of `_SERIES_RE`. -/
def seriesLoop (acc : List Char) : List Char → Option (String × String × Nat × Nat)
  | [] => none
  | c :: rest =>
      if c = '\n' then none
      else
        match seriesRest rest with
        | some (verb, w, l) => some (String.mk (acc ++ [c]), verb, w, l)
        | none => seriesLoop (acc ++ [c]) rest

/-- `_SERIES_RE.match(txt)`: the captures (team, verb, wins, losses). -/
def seriesMatch (txt : String) : Option (String × String × Nat × Nat) :=
  seriesLoop [] txt.data

/-- `_TIED_RE.match(txt)`:
`Series\s+(?:even|tied)\s+(?P<wins>\d+)-(?P<wins2>\d+)`, anchored at the
start by `.match`. -/
def tiedMatch (txt : String) : Option (Nat × Nat) := do
  let cs1 ← stripCI ['s', 'e', 'r', 'i', 'e', 's'] txt.data
  let cs2 ← ws1 cs1
  let cs3 ←
    match stripCI ['e', 'v', 'e', 'n'] cs2 with
    | some rest => some rest
    | none => stripCI ['t', 'i', 'e', 'd'] cs2
  let cs4 ← ws1 cs3
  let (w, cs5) ← digits1 cs4
  match cs5 with
  | '-' :: cs6 => do
      let (w2, _) ← digits1 cs6
      some (w, w2)
  | _ => none

/-- Source `_series_before_game` for a two-competitor contest.
`winner_team = next((c for c in competitors if c.get("winner")), competitors[0])`
and `loser_abbr` tests `competitors[1] is winner_team`. -/
def _series_before_game (summary_txt : String) (c0 c1 : Competitor) : String :=
  let winner_abbr :=
    if c0.winner then c0.team.abbreviation
    else if c1.winner then c1.team.abbreviation
    else c0.team.abbreviation
  let loser_abbr :=
    if !c0.winner && c1.winner then c0.team.abbreviation
    else c1.team.abbreviation
  match seriesMatch summary_txt with
  | some (team, verb, wins, losses) =>
      let leader_abbr := _match_team_to_abbr team [c0, c1]
      if pyLower verb = "wins" then
        leader_abbr ++ " leads series " ++ toString ((wins : Int) - 1) ++ "-" ++
          toString (losses : Int)
      else if leader_abbr = winner_abbr then
        leader_abbr ++ " leads series " ++ toString ((wins : Int) - 1) ++ "-" ++
          toString (losses : Int)
      else
        leader_abbr ++ " leads series " ++ toString (wins : Int) ++ "-" ++
          toString ((losses : Int) - 1)
  | none =>
      match tiedMatch summary_txt with
      | some (wins, _) =>
          loser_abbr ++ " leads series " ++ toString (wins : Int) ++ "-" ++
            toString ((wins : Int) - 1)
      | none => summary_txt

/-- Game-type classification, source line
`{1: "Regular Season", 3: "Playoffs"}.get(st, "Play‑In")` (note the
non-breaking hyphen U+2011 in the source literal).  Python key equality
makes `True` hit the key `1`. -/
def gameTypeOf (st : JVal) : String :=
  match st with
  | .i 1 => "Regular Season"
  | .b true => "Regular Season"
  | .i 3 => "Playoffs"
  | _ => "Play‑In"

/-- `max((p["pts"] for p in players), default=0)`. -/
def max_pts : List Player → Int
  | [] => 0
  | p :: ps => ps.foldl (fun m q => max m q.pts) p.pts

/-- Python slicing `v[:3]` (only sequences support slices). -/
def pySlice3 : JVal → Except PyErr (List JVal)
  | .arr xs => .ok (xs.toList.take 3)
  | .s str => .ok ((str.data.take 3).map fun c => JVal.s (String.mk [c]))
  | _ => .error .typeError

/-- The inner `q3tot` of `_evaluate_games`:
`sum(_to_int(ls.get("value")) for ls in team.get("linescores", [])[:3])`. -/
def q3tot (team : JVal) : Except PyErr Int := do
  let lsV ← jget team "linescores" (.arr .nil)
  let ls3 ← pySlice3 lsV
  foldME (fun acc ls => do
      let v ← jget ls "value" .null
      .ok (acc + _to_int v)) 0 ls3

/-- Auxiliary: `Char.ofNat` round-trips on codepoints below the surrogate
range (all that `chUp`/`chLow` produce). -/
theorem toNat_ofNat' (n : Nat) (h : n < 55296) : (Char.ofNat n).toNat = n := by
  have hv : n.isValidChar := Or.inl h
  simp [Char.ofNat, hv, Char.ofNatAux, Char.toNat, UInt32.toNat, BitVec.toNat_ofNatLt]

theorem ofNat_toNat' (c : Char) : Char.ofNat c.toNat = c := by
  have hv : c.toNat.isValidChar := c.valid
  apply Char.ext
  rw [Char.ofNat, dif_pos hv]
  show UInt32.mk (BitVec.ofNatLt c.val.toNat _) = c.val
  apply UInt32.ext
  simp [UInt32.toNat, BitVec.toNat_ofNatLt]

/-- Lowercasing after uppercasing is plain lowercasing (ASCII). -/
theorem chLow_chUp (c : Char) : chLow (chUp c) = chLow c := by
  unfold chUp chLow
  by_cases h : 97 ≤ c.toNat ∧ c.toNat ≤ 122
  · have h1 : (Char.ofNat (c.toNat - 32)).toNat = c.toNat - 32 := toNat_ofNat' _ (by omega)
    have h2 : 65 ≤ c.toNat - 32 ∧ c.toNat - 32 ≤ 90 := by omega
    have h3 : ¬ (65 ≤ c.toNat ∧ c.toNat ≤ 90) := by omega
    have h4 : c.toNat - 32 + 32 = c.toNat := by omega
    rw [if_pos h, h1, if_pos h2, if_neg h3, h4, ofNat_toNat']
  · simp [h]

theorem pyLower_pyUpper (s : String) : pyLower (pyUpper s) = pyLower s := by
  simp only [pyLower, pyUpper, List.map_map]
  congr 1
  exact List.map_congr_left fun c _ => chLow_chUp c

/-- The badge block of `_evaluate_games` (source lines 271–289), with the
home/away competitor dicts and `comp["status"]` passed in. -/
def gameBadges (players : List Player) (home away status : JVal) :
    Except PyErr (List String) := do
  let scoring :=
    if 50 ≤ max_pts players then ["pts50"]
    else if 40 ≤ max_pts players then ["pts40"]
    else if 30 ≤ max_pts players then ["pts30"]
    else []
  let td :=
    if players.any (fun p => 10 ≤ p.pts && 10 ≤ p.reb && 10 ≤ p.ast) then ["tripleDouble"]
    else []
  let h3 ← q3tot home
  let a3 ← q3tot away
  let c4 := if (h3 - a3).natAbs ≤ 10 then ["close4"] else []
  let hs ← jindexS home "score"
  let asv ← jindexS away "score"
  let margin := (_to_int hs - _to_int asv).natAbs
  let per ← jget status "period" (.i 4)
  let cg := if margin ≤ 7 ∨ 4 < _to_int per then ["closeGame"] else []
  let ot := if 4 < _to_int per then ["overtime"] else []
  .ok (scoring ++ td ++ c4 ++ cg ++ ot)

/-! ## Series reconstruction claims -/

/-- Leader resolution as the spec words it: the team text is matched
case-insensitively against display name, short display name, canonical
name and abbreviation of either competitor, falling back to the raw
matched team text. -/
def specResolveLeader (t : String) (c0 c1 : Competitor) : String :=
  if pyLower t ∈
      [pyLower c0.team.displayName, pyLower c0.team.shortDisplayName,
       pyLower c0.team.name, pyLower c0.team.abbreviation] then
    c0.team.abbreviation
  else if pyLower t ∈
      [pyLower c1.team.displayName, pyLower c1.team.shortDisplayName,
       pyLower c1.team.name, pyLower c1.team.abbreviation] then
    c1.team.abbreviation
  else t

theorem match_team_pair (t : String) (c0 c1 : Competitor) :
    _match_team_to_abbr t [c0, c1] = specResolveLeader t c0 c1 := by
  simp only [_match_team_to_abbr, specResolveLeader]

/-- C1: on a summary matching `<Team> (leads|wins) series <W>-<L>` with one
declared winner, the reconstructed pre-game label decrements the leader's
wins for verb "wins", decrements the leader's wins when the resolved leader
abbreviation is the declared winner's, and otherwise decrements the loss
count, with the leader resolved per `specResolveLeader`. -/
theorem claim1_series_leads_wins (txt team verb : String) (w l : Nat) (c0 c1 : Competitor)
    (hm : seriesMatch txt = some (team, verb, w, l))
    (hw : (c0.winner = true ∧ c1.winner = false) ∨ (c0.winner = false ∧ c1.winner = true)) :
    _series_before_game txt c0 c1 =
      (if pyLower verb = "wins" then
        specResolveLeader team c0 c1 ++ " leads series " ++
          toString ((w : Int) - 1) ++ "-" ++ toString (l : Int)
      else if specResolveLeader team c0 c1 =
          (if c0.winner then c0.team.abbreviation else c1.team.abbreviation) then
        specResolveLeader team c0 c1 ++ " leads series " ++
          toString ((w : Int) - 1) ++ "-" ++ toString (l : Int)
      else
        specResolveLeader team c0 c1 ++ " leads series " ++
          toString (w : Int) ++ "-" ++ toString ((l : Int) - 1)) := by
  unfold _series_before_game
  rw [hm]
  dsimp only
  rw [match_team_pair]
  rcases hw with ⟨h0, h1⟩ | ⟨h0, h1⟩ <;> simp only [h0, h1] <;> rfl

def wMavs : Competitor := ⟨⟨"Dallas Mavericks", "Mavericks", "Mavericks", "DAL"⟩, true⟩

def wCelt : Competitor := ⟨⟨"Boston Celtics", "Celtics", "Celtics", "BOS"⟩, false⟩

theorem claim1_series_leads_wins_witness :
    seriesMatch "Mavericks leads series 3-2" = some ("Mavericks", "leads", 3, 2) ∧
    _series_before_game "Mavericks leads series 3-2" wMavs wCelt =
      (if pyLower "leads" = "wins" then
        specResolveLeader "Mavericks" wMavs wCelt ++ " leads series " ++
          toString (((3 : Nat) : Int) - 1) ++ "-" ++ toString ((2 : Nat) : Int)
      else if specResolveLeader "Mavericks" wMavs wCelt =
          (if wMavs.winner then wMavs.team.abbreviation else wCelt.team.abbreviation) then
        specResolveLeader "Mavericks" wMavs wCelt ++ " leads series " ++
          toString (((3 : Nat) : Int) - 1) ++ "-" ++ toString ((2 : Nat) : Int)
      else
        specResolveLeader "Mavericks" wMavs wCelt ++ " leads series " ++
          toString ((3 : Nat) : Int) ++ "-" ++ toString (((2 : Nat) : Int) - 1)) ∧
    _series_before_game "Mavericks leads series 3-2" wMavs wCelt = "DAL leads series 2-2" :=
  ⟨by decide,
   claim1_series_leads_wins "Mavericks leads series 3-2" "Mavericks" "leads" 3 2 wMavs wCelt
     (by decide) (Or.inl ⟨rfl, rfl⟩),
   by decide⟩

/-- C6 (amended): on a summary that does not match the leads/wins pattern
but matches `Series (tied|even) <W>-<W2>`, with one declared winner, the
result labels the contest loser as leading `<W>-<W-1>`. -/
theorem claim6_series_tied (txt : String) (w w2 : Nat) (c0 c1 : Competitor)
    (hs : seriesMatch txt = none) (ht : tiedMatch txt = some (w, w2))
    (hw : (c0.winner = true ∧ c1.winner = false) ∨ (c0.winner = false ∧ c1.winner = true)) :
    _series_before_game txt c0 c1 =
      (if c0.winner then c1.team.abbreviation else c0.team.abbreviation) ++
        " leads series " ++ toString (w : Int) ++ "-" ++ toString ((w : Int) - 1) := by
  unfold _series_before_game
  rw [hs, ht]
  rcases hw with ⟨h0, h1⟩ | ⟨h0, h1⟩ <;> simp [h0, h1]

def wCeltW : Competitor := ⟨⟨"Boston Celtics", "Celtics", "Celtics", "BOS"⟩, true⟩

def wMavsL : Competitor := ⟨⟨"Dallas Mavericks", "Mavericks", "Mavericks", "DAL"⟩, false⟩

def tiedCexTxt : String := "Series tied 2-2 but DAL leads series 9-9"

/-- C6 counterexample: this text matches the tied pattern, yet the code's
leads/wins pattern (tried first) also matches it, so the output is not the
loser-led `DAL leads series 2-1` the claim demands. -/
theorem claim6_tied_counterexample :
    tiedMatch tiedCexTxt = some (2, 2) ∧
    _series_before_game tiedCexTxt wCeltW wMavsL =
      "Series tied 2-2 but DAL leads series 9-8" ∧
    _series_before_game tiedCexTxt wCeltW wMavsL ≠ "DAL leads series 2-1" :=
  ⟨by decide, by decide, by decide⟩

theorem claim6_series_tied_witness :
    seriesMatch "Series tied 2-2" = none ∧ tiedMatch "Series tied 2-2" = some (2, 2) ∧
    _series_before_game "Series tied 2-2" wCeltW wMavsL =
      (if wCeltW.winner then wMavsL.team.abbreviation else wCeltW.team.abbreviation) ++
        " leads series " ++ toString ((2 : Nat) : Int) ++ "-" ++ toString (((2 : Nat) : Int) - 1) ∧
    _series_before_game "Series tied 2-2" wCeltW wMavsL = "DAL leads series 2-1" :=
  ⟨by decide, by decide,
   claim6_series_tied "Series tied 2-2" 2 2 wCeltW wMavsL (by decide) (by decide)
     (Or.inl ⟨rfl, rfl⟩),
   by decide⟩

/-- C7: when neither pattern matches, the summary text is returned
unchanged (and the total Lean embedding shows no failure is possible). -/
theorem claim7_series_passthrough (txt : String) (c0 c1 : Competitor)
    (h1 : seriesMatch txt = none) (h2 : tiedMatch txt = none) :
    _series_before_game txt c0 c1 = txt := by
  unfold _series_before_game
  rw [h1, h2]

theorem claim7_series_passthrough_witness :
    seriesMatch "unparseable free text" = none ∧
    tiedMatch "unparseable free text" = none ∧
    _series_before_game "unparseable free text" wMavs wCelt = "unparseable free text" :=
  ⟨by decide, by decide, claim7_series_passthrough _ _ _ (by decide) (by decide)⟩

/-! ## Game-type classification (C5) -/

/-- C5 counterexample: for a season-type code other than 1 or 3 the code
produces "Play‑In" with the non-breaking hyphen U+2011, which differs from
the claimed ASCII string "Play-In". -/
theorem claim5_game_type_counterexample :
    gameTypeOf (.i 2) = "Play‑In" ∧ gameTypeOf (.i 2) ≠ "Play-In" := by
  constructor
  · rfl
  · decide

/-- C5 (amended): season-type code 1 maps to "Regular Season", 3 to
"Playoffs", and any other integer code to exactly "Play‑In" (with the
non-breaking hyphen U+2011, not the ASCII hyphen). -/
theorem claim5_game_type (st : Int) :
    gameTypeOf (.i st) =
      if st = 1 then "Regular Season"
      else if st = 3 then "Playoffs"
      else "Play‑In" := by
  by_cases h1 : st = 1
  · subst h1; rfl
  · by_cases h3 : st = 3
    · subst h3; rfl
    · simp [gameTypeOf, h1, h3]

/-! ## Badge claims (C4, C10) -/

theorem exceptBind_ok {α β : Type} (x : Except PyErr α) (f : α → Except PyErr β) (b : β)
    (h : (x >>= f) = .ok b) : ∃ a, x = .ok a ∧ f a = .ok b := by
  cases x with
  | ok a => exact ⟨a, rfl, h⟩
  | error e => exact Except.noConfusion h

theorem mem_cond_singleton (x s : String) (c : Prop) [Decidable c] :
    x ∈ (if c then [s] else []) ↔ c ∧ x = s := by
  split <;> simp_all

theorem le_foldl_max (t a : Int) (l : List Player) :
    t ≤ l.foldl (fun m q => max m q.pts) a ↔ t ≤ a ∨ ∃ p ∈ l, t ≤ p.pts := by
  induction l generalizing a with
  | nil => simp
  | cons q rest ih =>
      simp only [List.foldl_cons, ih, le_max_iff, List.mem_cons]
      constructor
      · rintro ((h | h) | ⟨p, hp, h⟩)
        · exact Or.inl h
        · exact Or.inr ⟨q, Or.inl rfl, h⟩
        · exact Or.inr ⟨p, Or.inr hp, h⟩
      · rintro (h | ⟨p, (rfl | hp), h⟩)
        · exact Or.inl (Or.inl h)
        · exact Or.inl (Or.inr h)
        · exact Or.inr ⟨p, hp, h⟩

/-- A positive threshold is reached by `max_pts` iff some player reaches it. -/
theorem ge_max_pts_iff (t : Int) (ht : 0 < t) (l : List Player) :
    t ≤ max_pts l ↔ ∃ p ∈ l, t ≤ p.pts := by
  cases l with
  | nil =>
      simp only [max_pts, List.not_mem_nil]
      constructor
      · intro h; omega
      · rintro ⟨p, hp, _⟩; exact absurd hp (by simp)
  | cons q rest =>
      simp only [max_pts, le_foldl_max, List.mem_cons]
      constructor
      · rintro (h | ⟨p, hp, h⟩)
        · exact ⟨q, Or.inl rfl, h⟩
        · exact ⟨p, Or.inr hp, h⟩
      · rintro ⟨p, (rfl | hp), h⟩
        · exact Or.inl h
        · exact Or.inr ⟨p, hp, h⟩

/-- Unpacking a successful `gameBadges` run into its five fallible reads
and the resulting badge-list shape. -/
theorem gameBadges_ok_shape (players : List Player) (home away status : JVal)
    (badges : List String) (h : gameBadges players home away status = .ok badges) :
    ∃ h3 a3 hs asv per, q3tot home = .ok h3 ∧ q3tot away = .ok a3 ∧
      jindexS home "score" = .ok hs ∧ jindexS away "score" = .ok asv ∧
      jget status "period" (.i 4) = .ok per ∧
      badges =
        (if 50 ≤ max_pts players then ["pts50"]
         else if 40 ≤ max_pts players then ["pts40"]
         else if 30 ≤ max_pts players then ["pts30"]
         else []) ++
        (if players.any (fun p => 10 ≤ p.pts && 10 ≤ p.reb && 10 ≤ p.ast) then ["tripleDouble"]
         else []) ++
        (if (h3 - a3).natAbs ≤ 10 then ["close4"] else []) ++
        (if (_to_int hs - _to_int asv).natAbs ≤ 7 ∨ 4 < _to_int per then ["closeGame"] else []) ++
        (if 4 < _to_int per then ["overtime"] else []) := by
  unfold gameBadges at h
  obtain ⟨h3, hq1, h⟩ := exceptBind_ok _ _ _ h
  obtain ⟨a3, hq2, h⟩ := exceptBind_ok _ _ _ h
  obtain ⟨hs, hq3, h⟩ := exceptBind_ok _ _ _ h
  obtain ⟨asv, hq4, h⟩ := exceptBind_ok _ _ _ h
  obtain ⟨per, hq5, h⟩ := exceptBind_ok _ _ _ h
  simp only [pure, Except.pure, Except.ok.injEq] at h
  exact ⟨h3, a3, hs, asv, per, hq1, hq2, hq3, hq4, hq5, h.symm⟩

/-- C4: the scoring-tier badges are mutually exclusive, the highest
threshold reached by any player wins. -/
theorem claim4_scoring_tier (players : List Player) (home away status : JVal)
    (badges : List String) (h : gameBadges players home away status = .ok badges) :
    ("pts50" ∈ badges ↔ ∃ p ∈ players, 50 ≤ p.pts) ∧
    ("pts40" ∈ badges ↔ ((∃ p ∈ players, 40 ≤ p.pts) ∧ ¬ ∃ p ∈ players, 50 ≤ p.pts)) ∧
    ("pts30" ∈ badges ↔ ((∃ p ∈ players, 30 ≤ p.pts) ∧ ¬ ∃ p ∈ players, 40 ≤ p.pts)) ∧
    ¬ (("pts50" ∈ badges ∧ "pts40" ∈ badges) ∨ ("pts50" ∈ badges ∧ "pts30" ∈ badges) ∨
       ("pts40" ∈ badges ∧ "pts30" ∈ badges)) := by
  obtain ⟨h3, a3, hs, asv, per, _, _, _, _, _, hb⟩ := gameBadges_ok_shape _ _ _ _ _ h
  subst hb
  rw [← ge_max_pts_iff 50 (by omega), ← ge_max_pts_iff 40 (by omega),
    ← ge_max_pts_iff 30 (by omega)]
  by_cases c50 : 50 ≤ max_pts players <;>
    by_cases c40 : 40 ≤ max_pts players <;>
      by_cases c30 : 30 ≤ max_pts players
  all_goals simp [c50, c40, c30, mem_cond_singleton, List.mem_append]
  all_goals omega

def wbPlayers : List Player := [⟨.s "X", 52, 5, 3⟩]

def wbHome : JVal := .obj (.cons "score" (.i 100) .nil)

def wbAway : JVal := .obj (.cons "score" (.i 80) .nil)

def wbStatus : JVal := .obj .nil

theorem claim4_scoring_tier_witness :
    gameBadges wbPlayers wbHome wbAway wbStatus = .ok ["pts50", "close4"] ∧
    (("pts50" ∈ ["pts50", "close4"] ↔ ∃ p ∈ wbPlayers, 50 ≤ p.pts) ∧
     ("pts40" ∈ ["pts50", "close4"] ↔
       ((∃ p ∈ wbPlayers, 40 ≤ p.pts) ∧ ¬ ∃ p ∈ wbPlayers, 50 ≤ p.pts)) ∧
     ("pts30" ∈ ["pts50", "close4"] ↔
       ((∃ p ∈ wbPlayers, 30 ≤ p.pts) ∧ ¬ ∃ p ∈ wbPlayers, 40 ≤ p.pts)) ∧
     ¬ (("pts50" ∈ ["pts50", "close4"] ∧ "pts40" ∈ ["pts50", "close4"]) ∨
        ("pts50" ∈ ["pts50", "close4"] ∧ "pts30" ∈ ["pts50", "close4"]) ∨
        ("pts40" ∈ ["pts50", "close4"] ∧ "pts30" ∈ ["pts50", "close4"]))) :=
  ⟨by rfl, claim4_scoring_tier wbPlayers wbHome wbAway wbStatus ["pts50", "close4"] (by rfl)⟩

theorem mem_scoring (x : String) (m : Int)
    (h : x ∈ (if 50 ≤ m then ["pts50"] else if 40 ≤ m then ["pts40"]
              else if 30 ≤ m then ["pts30"] else [])) :
    x = "pts50" ∨ x = "pts40" ∨ x = "pts30" := by
  revert h
  split
  · simp_all
  · split
    · simp_all
    · split <;> simp_all

/-- C10: whenever the overtime badge is present (reported period count
above 4), the closeGame badge is present too, whatever the margin. -/
theorem claim10_overtime_close (players : List Player) (home away status : JVal)
    (badges : List String) (h : gameBadges players home away status = .ok badges)
    (hot : "overtime" ∈ badges) : "closeGame" ∈ badges := by
  obtain ⟨h3, a3, hs, asv, per, _, _, _, _, _, hb⟩ := gameBadges_ok_shape _ _ _ _ _ h
  subst hb
  simp only [List.mem_append, mem_cond_singleton] at hot ⊢
  rcases hot with (((ha | hb) | hc) | hd) | he
  · rcases mem_scoring _ _ ha with h' | h' | h' <;> exact absurd h' (by decide)
  · exact absurd hb.2 (by decide)
  · exact absurd hc.2 (by decide)
  · exact absurd hd.2 (by decide)
  · exact Or.inl (Or.inr ⟨Or.inr he.1, trivial⟩)

def wbStatusOT : JVal := .obj (.cons "period" (.i 5) .nil)

theorem claim10_overtime_close_witness :
    gameBadges [] wbHome wbAway wbStatusOT = .ok ["close4", "closeGame", "overtime"] ∧
    "closeGame" ∈ ["close4", "closeGame", "overtime"] :=
  ⟨by rfl,
   claim10_overtime_close [] wbHome wbAway wbStatusOT ["close4", "closeGame", "overtime"]
     (by rfl) (by decide)⟩

/-! ## Duplicate-name claims (C3) -/

theorem foldME_invariant {α β : Type} (f : β → α → Except PyErr β) (P : β → Prop)
    (hstep : ∀ b x b', P b → f b x = .ok b' → P b') :
    ∀ (l : List α) (b r : β), P b → foldME f b l = .ok r → P r := by
  intro l
  induction l with
  | nil =>
      intro b r hb h
      unfold foldME at h
      cases h
      exact hb
  | cons x xs ih =>
      intro b r hb h
      unfold foldME at h
      obtain ⟨b', hfx, h⟩ := exceptBind_ok _ _ _ h
      exact ih b' r (hstep b x b' hb hfx) h

/-- Mutating a found entry's category leaves the name column unchanged. -/
theorem updateFirst_map_name (out : List Player) (nm : JVal) (c : Cat) (v : Int) :
    (updateFirst out nm c v).map Player.name = out.map Player.name := by
  induction out with
  | nil => rfl
  | cons p rest ih =>
      unfold updateFirst
      split
      · cases c <;> simp [setCat]
      · simp [ih]

theorem addLeader_nodup (out : List Player) (nm : JVal) (c : Cat) (v : Int)
    (h : (out.map Player.name).Nodup) : ((addLeader out nm c v).map Player.name).Nodup := by
  unfold addLeader
  split
  · rw [updateFirst_map_name]; exact h
  · rename_i hany
    have hnm : nm ∉ out.map Player.name := by
      intro hmem
      obtain ⟨p, hp, hpn⟩ := List.mem_map.mp hmem
      exact hany (List.any_eq_true.mpr ⟨p, hp, by simp [hpn]⟩)
    cases c <;> simp [setCat, List.nodup_append, h, hnm, List.disjoint_singleton]

theorem procEntry_nodup (c : Cat) (out : List Player) (l : JVal) (out' : List Player)
    (h : (out.map Player.name).Nodup) (he : procEntry c out l = .ok out') :
    (out'.map Player.name).Nodup := by
  unfold procEntry at he
  obtain ⟨ath, _, he⟩ := exceptBind_ok _ _ _ he
  obtain ⟨nm, _, he⟩ := exceptBind_ok _ _ _ he
  obtain ⟨v, _, he⟩ := exceptBind_ok _ _ _ he
  simp only [pure, Except.pure, Except.ok.injEq] at he
  exact he ▸ addLeader_nodup out nm c (_to_int v) h

theorem procGroup_nodup (out : List Player) (g : JVal) (out' : List Player)
    (h : (out.map Player.name).Nodup) (he : procGroup out g = .ok out') :
    (out'.map Player.name).Nodup := by
  unfold procGroup at he
  obtain ⟨abbr, _, he⟩ := exceptBind_ok _ _ _ he
  obtain ⟨catO, _, he⟩ := exceptBind_ok _ _ _ he
  match catO with
  | none =>
      simp only at he
      cases he
      exact h
  | some c =>
      simp only at he
      obtain ⟨lsV, _, he⟩ := exceptBind_ok _ _ _ he
      obtain ⟨ls, _, he⟩ := exceptBind_ok _ _ _ he
      exact foldME_invariant (procEntry c) (fun o => (o.map Player.name).Nodup)
        (fun b x b' hb hfx => procEntry_nodup c b x b' hb hfx) ls out out' h he

/-- C3 (amended): the leader fallback merges by name, so its output names
are pairwise distinct. -/
theorem claim3_fallback_nodup (comp : JVal) (lines : List Player)
    (h : _fallback_leaders comp = .ok lines) :
    (lines.map Player.name).Nodup := by
  unfold _fallback_leaders at h
  obtain ⟨lv, _, h⟩ := exceptBind_ok _ _ _ h
  obtain ⟨groups, _, h⟩ := exceptBind_ok _ _ _ h
  exact foldME_invariant procGroup (fun o => (o.map Player.name).Nodup)
    (fun b x b' hb hfx => procGroup_nodup b x b' hb hfx) groups [] lines (by simp) h

/-- A boxscore whose single Format-B roster lists two empty player dicts:
both default to the name "Unknown". -/
def dupBox : JVal :=
  .obj (.cons "players"
    (.arr (.cons (.arr (.cons (.obj .nil) (.cons (.obj .nil) .nil))) .nil)) .nil)

/-- C3 counterexample: `_collect_players` performs no deduplication, so a
single game's extracted output can carry two stat lines with the same
player name. -/
theorem claim3_duplicate_counterexample :
    _collect_players dupBox =
      .ok [⟨.s "Unknown", 0, 0, 0⟩, ⟨.s "Unknown", 0, 0, 0⟩] ∧
    ¬ ((([⟨.s "Unknown", 0, 0, 0⟩, ⟨.s "Unknown", 0, 0, 0⟩] : List Player).map
        Player.name).Nodup) :=
  ⟨by rfl, by decide⟩

/-- Builder for one leaders group document. -/
def mkLeaderGroup (a : String) (ls : List (String × JVal)) : JVal :=
  .obj (.cons "abbreviation" (.s a)
    (.cons "leaders" (.arr (jlOf (ls.map fun nv =>
      .obj (.cons "athlete" (.obj (.cons "displayName" (.s nv.1) .nil))
        (.cons "value" nv.2 .nil))))) .nil))

/-- Builder for a competition document holding only leader groups. -/
def mkLeadersComp (gs : List JVal) : JVal :=
  .obj (.cons "leaders" (.arr (jlOf gs)) .nil)

def w3comp : JVal :=
  mkLeadersComp [mkLeaderGroup "PTS" [("C", .i 22)], mkLeaderGroup "AST" [("D", .i 5)]]

theorem claim3_fallback_nodup_witness :
    _fallback_leaders w3comp = .ok [⟨.s "C", 22, 0, 0⟩, ⟨.s "D", 0, 0, 5⟩] ∧
    (([⟨.s "C", 22, 0, 0⟩, ⟨.s "D", 0, 0, 5⟩] : List Player).map Player.name).Nodup :=
  ⟨by rfl, claim3_fallback_nodup w3comp _ (by rfl)⟩

/-! ## Leader-fallback merge claims (C9) -/

theorem jlOf_toList (l : List JVal) : (jlOf l).toList = l := by
  induction l with
  | nil => rfl
  | cons x xs ih => simp [jlOf, JList.toList, ih]

theorem fallback_on_groups (gs : List JVal) :
    _fallback_leaders (mkLeadersComp gs) = foldME procGroup [] gs := by
  simp [_fallback_leaders, mkLeadersComp, jget, JKVs.find?, jiter, jlOf_toList, bind,
    Except.bind]

/-- A leader group whose abbreviation is a string other than PTS/REB/AST
is skipped without touching the accumulated lines. -/
theorem procGroup_skip (g : JVal) (s : String) (out : List Player)
    (hs1 : s ≠ "PTS") (hs2 : s ≠ "REB") (hs3 : s ≠ "AST")
    (hg : jget g "abbreviation" .null = .ok (.s s)) :
    procGroup out g = .ok out := by
  unfold procGroup
  rw [hg]
  simp [mappingGet, hs1, hs2, hs3, bind, Except.bind]

theorem foldME_skip (g : JVal) (s : String)
    (hs1 : s ≠ "PTS") (hs2 : s ≠ "REB") (hs3 : s ≠ "AST")
    (hg : jget g "abbreviation" .null = .ok (.s s)) :
    ∀ (gs1 gs2 : List JVal) (out : List Player),
      foldME procGroup out (gs1 ++ g :: gs2) = foldME procGroup out (gs1 ++ gs2) := by
  intro gs1
  induction gs1 with
  | nil =>
      intro gs2 out
      simp only [List.nil_append]
      unfold foldME
      rw [procGroup_skip g s out hs1 hs2 hs3 hg]
      conv_lhs => unfold foldME
      simp only [bind, Except.bind]
  | cons x xs ih =>
      intro gs2 out
      simp only [List.cons_append]
      unfold foldME
      cases hx : procGroup out x with
      | error e => rfl
      | ok out' => simpa using ih gs2 out'

/-- The spec's worked leaders example. -/
def exComp : JVal :=
  mkLeadersComp [mkLeaderGroup "PTS" [("A", .i 30)], mkLeaderGroup "REB" [("A", .i 10)],
    mkLeaderGroup "AST" [("B", .i 9)]]

/-- C9: the fallback consults only the PTS/REB/AST groups (any other group
leaves the output untouched) and merges players by display name across
groups (one line carrying both values, unlisted categories 0); in
particular the spec's example yields exactly the two claimed lines. -/
theorem claim9_fallback_merge :
    (_fallback_leaders exComp = .ok [⟨.s "A", 30, 10, 0⟩, ⟨.s "B", 0, 0, 9⟩]) ∧
    (∀ (nm : String) (v1 v2 : JVal),
      _fallback_leaders (mkLeadersComp
          [mkLeaderGroup "PTS" [(nm, v1)], mkLeaderGroup "REB" [(nm, v2)]]) =
        .ok [⟨.s nm, _to_int v1, _to_int v2, 0⟩]) ∧
    (∀ (gs1 gs2 : List JVal) (g : JVal) (s : String),
      s ≠ "PTS" → s ≠ "REB" → s ≠ "AST" →
      jget g "abbreviation" .null = .ok (.s s) →
      _fallback_leaders (mkLeadersComp (gs1 ++ g :: gs2)) =
        _fallback_leaders (mkLeadersComp (gs1 ++ gs2))) := by
  refine ⟨by rfl, ?_, ?_⟩
  · intro nm v1 v2
    simp [mkLeadersComp, mkLeaderGroup, _fallback_leaders, jget, jiter, jlOf, JList.toList,
      JKVs.find?, foldME, procGroup, mappingGet, procEntry, addLeader, updateFirst, setCat,
      bind, Except.bind, pure, Except.pure]
  · intro gs1 gs2 g s hs1 hs2 hs3 hg
    rw [fallback_on_groups, fallback_on_groups, foldME_skip g s hs1 hs2 hs3 hg]

theorem claim9_fallback_merge_witness :
    (_fallback_leaders exComp = .ok [⟨.s "A", 30, 10, 0⟩, ⟨.s "B", 0, 0, 9⟩]) ∧
    (_fallback_leaders (mkLeadersComp
        [mkLeaderGroup "PTS" [("E", .i 12)], mkLeaderGroup "REB" [("E", .i 11)]]) =
      .ok [⟨.s "E", 12, 11, 0⟩]) ∧
    (_fallback_leaders (mkLeadersComp
        (mkLeaderGroup "STL" [("F", .i 3)] :: [mkLeaderGroup "PTS" [("G", .i 20)]])) =
      _fallback_leaders (mkLeadersComp [mkLeaderGroup "PTS" [("G", .i 20)]])) :=
  ⟨claim9_fallback_merge.1,
   claim9_fallback_merge.2.1 "E" (.i 12) (.i 11),
   claim9_fallback_merge.2.2 [] [mkLeaderGroup "PTS" [("G", .i 20)]]
     (mkLeaderGroup "STL" [("F", .i 3)]) "STL" (by decide) (by decide) (by decide) (by rfl)⟩

/-! ## Shape A column-resolution claims (C8) -/

/-- Spec-side description of the safe positional read: index -1 (or any
out-of-range index) yields 0, otherwise the parsed stat value. -/
def specSafe (stats : List JVal) (i : Int) : Int :=
  if i < 0 then 0 else ((stats.get? i.toNat).map _to_int).getD 0

theorem safe_arr (stats : List JVal) (i : Int) :
    _safe (.arr (jlOf stats)) i = .ok (specSafe stats i) := by
  unfold _safe specSafe
  split
  · rfl
  · rename_i hneg
    simp only [pyLen, jlOf_toList, bind, Except.bind]
    split
    · rename_i hlt
      simp only [jindexNat, jlOf_toList]
      cases hg : stats.get? i.toNat with
      | none =>
          rw [List.get?_eq_none] at hg
          omega
      | some v => simp [hg]
    · rename_i hge
      cases hg : stats.get? i.toNat with
      | none => simp [hg]
      | some v =>
          obtain ⟨h, _⟩ := List.get?_eq_some.mp hg
          omega

theorem mapME_ok_map {α β γ : Type} (f : β → Except PyErr γ) (g : α → β) (h : α → γ)
    (l : List α) (hx : ∀ x ∈ l, f (g x) = .ok (h x)) :
    mapME f (l.map g) = .ok (l.map h) := by
  induction l with
  | nil => rfl
  | cons x xs ih =>
      simp only [List.map_cons, mapME, hx x (by simp), bind, Except.bind]
      rw [ih (fun a ha => hx a (by simp [ha]))]

def mkAthleteA (nm : String) (stats : List JVal) : JVal :=
  .obj (.cons "athlete" (.obj (.cons "displayName" (.s nm) .nil))
    (.cons "stats" (.arr (jlOf stats)) .nil))

def mkShapeABox (names : List String) (aths : List (String × List JVal)) : JVal :=
  .obj (.cons "players" (.arr (.cons (.obj (.cons "statistics"
    (.arr (.cons (.obj (.cons "names" (.arr (jlOf (names.map JVal.s)))
      (.cons "athletes" (.arr (jlOf (aths.map fun a => mkAthleteA a.1 a.2)))
        .nil))) .nil)) .nil)) .nil)) .nil)

theorem collectAAth_eval (ipts ireb iast : Int) (nm : String) (stats : List JVal) :
    collectAAth ipts ireb iast (mkAthleteA nm stats) =
      .ok ⟨.s nm, specSafe stats ipts, specSafe stats ireb, specSafe stats iast⟩ := by
  simp [collectAAth, mkAthleteA, jget, JKVs.find?, athName, safe_arr, bind, Except.bind,
    pure, Except.pure]

theorem lookupGo_findIdx (w : String) (names : List String) (k : Nat) :
    lookupGo w (names.map pyUpper) k =
      (match names.findIdx? (fun n => (pyLower n == w) || (pyLower n == longForm w)) k with
       | some j => (j : Int)
       | none => -1) := by
  induction names generalizing k with
  | nil => rfl
  | cons n rest ih =>
      simp only [List.map_cons, lookupGo, List.findIdx?_cons, pyLower_pyUpper]
      by_cases h : pyLower n = w ∨ pyLower n = longForm w
      · rw [if_pos h, if_pos (by simpa using h)]
      · rw [if_neg h, if_neg (by simpa using h), ih]

theorem lookup_shapeA (names : List String) (w : String)
    (hw : w = "pts" ∨ w = "reb" ∨ w = "ast") :
    _lookup (names.map pyUpper) w =
      (match names.findIdx? (fun n => (pyLower n == w) || (pyLower n == longForm w)) with
       | some j => (j : Int)
       | none => -1) := by
  have hl : pyLower w = w := by rcases hw with rfl | rfl | rfl <;> decide
  unfold _lookup
  rw [hl, lookupGo_findIdx]


theorem mapME_asStrUpper (names : List String) :
    mapME asStrUpper (names.map JVal.s) = .ok (names.map pyUpper) :=
  mapME_ok_map _ _ _ _ (fun _x _ => rfl)

theorem mapME_collectAAth (ip ir ia : Int) (l : List (String × List JVal)) :
    mapME (collectAAth ip ir ia) (l.map fun a => mkAthleteA a.1 a.2) =
      .ok (l.map fun a => (⟨.s a.1, specSafe a.2 ip, specSafe a.2 ir, specSafe a.2 ia⟩ : Player)) :=
  mapME_ok_map _ _ _ _ (fun _a _ => collectAAth_eval _ _ _ _ _)

theorem collect_shapeA (names : List String) (aths : List (String × List JVal))
    (hne : aths ≠ []) :
    _collect_players (mkShapeABox names aths) =
      .ok (aths.map fun a =>
        (⟨.s a.1, specSafe a.2 (_lookup (names.map pyUpper) "pts"),
          specSafe a.2 (_lookup (names.map pyUpper) "reb"),
          specSafe a.2 (_lookup (names.map pyUpper) "ast")⟩ : Player)) := by
  obtain ⟨a0, arest, rfl⟩ : ∃ a0 arest, aths = a0 :: arest := by
    cases aths with
    | nil => exact absurd rfl hne
    | cons a0 arest => exact ⟨a0, arest, rfl⟩
  simp [_collect_players, mkShapeABox, collectRoster, collectA, jget, jindexS, jindex0,
    jiter, JKVs.find?, truthy, jlOf, JList.toList, jlOf_toList, mapME, bind, Except.bind,
    pure, Except.pure, mapME_asStrUpper, collectAAth_eval, mapME_collectAAth]

theorem lookup_eq_neg_one_iff (names : List String) (w : String)
    (hw : w = "pts" ∨ w = "reb" ∨ w = "ast") :
    _lookup (names.map pyUpper) w = -1 ↔
      ∀ n ∈ names, ¬(pyLower n = w ∨ pyLower n = longForm w) := by
  rw [lookup_shapeA names w hw]
  constructor
  · intro h n hn
    cases hf : names.findIdx? (fun n => (pyLower n == w) || (pyLower n == longForm w)) with
    | none =>
        rw [List.findIdx?_eq_none_iff] at hf
        have := hf n hn
        simpa using this
    | some j => rw [hf] at h; simp at h
  · intro h
    have hf : names.findIdx? (fun n => (pyLower n == w) || (pyLower n == longForm w)) = none :=
      List.findIdx?_eq_none_iff.mpr (fun x hx => by simpa using h x hx)
    rw [hf]

theorem safe_oob (stats : List JVal) (i : Int) (h : i < 0 ∨ (stats.length : Int) ≤ i) :
    _safe (.arr (jlOf stats)) i = .ok 0 := by
  rw [safe_arr]
  unfold specSafe
  rcases h with h | h
  · rw [if_pos h]
  · rw [if_neg (by omega)]
    have hg : stats[i.toNat]? = none := by rw [List.getElem?_eq_none_iff]; omega
    simp [hg]

theorem claim8_shapeA_columns :
    (∀ (names : List String) (aths : List (String × List JVal)), aths ≠ [] →
      _collect_players (mkShapeABox names aths) =
        .ok (aths.map fun a =>
          (⟨.s a.1, specSafe a.2 (_lookup (names.map pyUpper) "pts"),
            specSafe a.2 (_lookup (names.map pyUpper) "reb"),
            specSafe a.2 (_lookup (names.map pyUpper) "ast")⟩ : Player))) ∧
    (∀ (names : List String) (w : String), (w = "pts" ∨ w = "reb" ∨ w = "ast") →
      _lookup (names.map pyUpper) w =
        (match names.findIdx? (fun n => (pyLower n == w) || (pyLower n == longForm w)) with
         | some j => (j : Int)
         | none => -1)) ∧
    (∀ (names : List String) (w : String), (w = "pts" ∨ w = "reb" ∨ w = "ast") →
      (_lookup (names.map pyUpper) w = -1 ↔
        ∀ n ∈ names, ¬(pyLower n = w ∨ pyLower n = longForm w))) ∧
    (∀ (stats : List JVal) (i : Int), i < 0 ∨ (stats.length : Int) ≤ i →
      _safe (.arr (jlOf stats)) i = .ok 0) :=
  ⟨collect_shapeA, lookup_shapeA, lookup_eq_neg_one_iff, safe_oob⟩

theorem claim8_shapeA_columns_witness :
    (_collect_players (mkShapeABox ["MIN", "Points", "REB"] [("A", [.s "30", .s "42", .i 7])]) =
      .ok ([("A", ([.s "30", .s "42", .i 7] : List JVal))].map fun a =>
        (⟨.s a.1, specSafe a.2 (_lookup (["MIN", "Points", "REB"].map pyUpper) "pts"),
          specSafe a.2 (_lookup (["MIN", "Points", "REB"].map pyUpper) "reb"),
          specSafe a.2 (_lookup (["MIN", "Points", "REB"].map pyUpper) "ast")⟩ : Player))) ∧
    (_collect_players (mkShapeABox ["MIN", "Points", "REB"] [("A", [.s "30", .s "42", .i 7])]) =
      .ok [⟨.s "A", 42, 7, 0⟩]) ∧
    (_lookup (["MIN", "Points", "REB"].map pyUpper) "pts" =
      (match ["MIN", "Points", "REB"].findIdx?
          (fun n => (pyLower n == "pts") || (pyLower n == longForm "pts")) with
       | some j => (j : Int)
       | none => -1)) ∧
    (_lookup (["MIN", "Points", "REB"].map pyUpper) "ast" = -1 ↔
      ∀ n ∈ ["MIN", "Points", "REB"], ¬(pyLower n = "ast" ∨ pyLower n = longForm "ast")) ∧
    _safe (.arr (jlOf [.i 5])) 3 = .ok 0 ∧
    _safe (.arr (jlOf [.i 5])) (-1) = .ok 0 :=
  ⟨claim8_shapeA_columns.1 ["MIN", "Points", "REB"] [("A", [.s "30", .s "42", .i 7])]
     (by decide),
   by rfl,
   claim8_shapeA_columns.2.1 ["MIN", "Points", "REB"] "pts" (Or.inl rfl),
   claim8_shapeA_columns.2.2.1 ["MIN", "Points", "REB"] "ast" (Or.inr (Or.inr rfl)),
   claim8_shapeA_columns.2.2.2 [.i 5] 3 (Or.inr (by decide)),
   claim8_shapeA_columns.2.2.2 [.i 5] (-1) (Or.inl (by decide))⟩

/-! ## Extractor totality claims (C2) -/

theorem mapME_ok_of_forall {α β : Type} (f : α → Except PyErr β) (l : List α)
    (h : ∀ x ∈ l, ∃ y, f x = .ok y) : ∃ ys, mapME f l = .ok ys := by
  induction l with
  | nil => exact ⟨[], rfl⟩
  | cons x xs ih =>
      obtain ⟨y, hy⟩ := h x (by simp)
      obtain ⟨ys, hys⟩ := ih (fun a ha => h a (by simp [ha]))
      exact ⟨y :: ys, by simp [mapME, hy, hys, bind, Except.bind]⟩

theorem foldME_ok_of_forall {α β : Type} (f : β → α → Except PyErr β) (l : List α)
    (h : ∀ b x, x ∈ l → ∃ b', f b x = .ok b') : ∀ b, ∃ r, foldME f b l = .ok r := by
  induction l with
  | nil => exact fun b => ⟨b, rfl⟩
  | cons x xs ih =>
      intro b
      obtain ⟨b', hb'⟩ := h b x (by simp)
      obtain ⟨r, hr⟩ := ih (fun c a ha => h c a (by simp [ha])) b'
      exact ⟨r, by simp [foldME, hb', hr, bind, Except.bind]⟩

/-- Well-formed Format B category entry: a dict whose abbreviation is
absent, null or a string and whose name is absent or a string. -/
def wfCat (c : JVal) : Bool :=
  match c with
  | .obj kvs =>
      (match JKVs.find? kvs "abbreviation" with
       | none => true
       | some .null => true
       | some (.s _) => true
       | some _ => false) &&
      (match JKVs.find? kvs "name" with
       | none => true
       | some (.s _) => true
       | some _ => false)
  | _ => false

/-- Well-formed athlete field: absent or a dict. -/
def wfAthField (kvs : JKVs) : Bool :=
  match JKVs.find? kvs "athlete" with
  | none => true
  | some (.obj _) => true
  | some _ => false

/-- Well-formed Format B player entry. -/
def wfPlyB (p : JVal) : Bool :=
  match p with
  | .obj kvs =>
      (match JKVs.find? kvs "statistics" with
       | none => true
       | some (.arr xs) => xs.toList.all wfCat
       | some _ => false) && wfAthField kvs
  | _ => false

/-- A stats value the positional `_safe` read is total on. -/
def wfStats : JVal → Bool
  | .arr _ => true
  | .s _ => true
  | _ => false

/-- Well-formed Format A athlete entry. -/
def wfAthA (a : JVal) : Bool :=
  match a with
  | .obj kvs =>
      (match JKVs.find? kvs "stats" with
       | none => true
       | some v => wfStats v) && wfAthField kvs
  | _ => false

def wfHeaderElem : JVal → Bool
  | .s _ => true
  | _ => false

/-- Well-formed Format A statistics block (used when its athletes field is
truthy). -/
def wfBlockA (block : JKVs) : Bool :=
  (match JKVs.find? block "names" with
   | none => true
   | some (.arr xs) => xs.toList.all wfHeaderElem
   | some (.s _) => true
   | some (.obj _) => true
   | some _ => false) &&
  (match JKVs.find? block "athletes" with
   | some (.arr xs) => xs.toList.all wfAthA
   | _ => false)

/-- Well-formed roster entry of a boxscore. -/
def wfRoster (r : JVal) : Bool :=
  match r with
  | .arr xs => xs.toList.all wfPlyB
  | .obj kvs =>
      match JKVs.find? kvs "statistics" with
      | none => true
      | some st =>
          if truthy st then
            match st with
            | .s _ => true
            | .arr xs =>
                match xs.toList with
                | [] => true
                | first :: _ =>
                    match first with
                    | .obj block =>
                        (match JKVs.find? block "athletes" with
                         | none => true
                         | some av => if truthy av then wfBlockA block else true)
                    | _ => true
            | _ => false
          else true
  | _ => true

/-- Well-formed boxscore document for C2's amended totality claim. -/
def wfBox (box : JVal) : Bool :=
  match box with
  | .obj kvs =>
      match JKVs.find? kvs "players" with
      | none => true
      | some (.arr xs) => xs.toList.all wfRoster
      | some (.s _) => true
      | some (.obj _) => true
      | some _ => false
  | _ => false

theorem catApply_ok (vals : Int × Int × Int) (c : JVal) (hc : wfCat c = true) :
    ∃ v, catApply vals c = .ok v := by
  cases c with
  | obj kvs =>
      simp only [wfCat, Bool.and_eq_true] at hc
      obtain ⟨h1, h2⟩ := hc
      unfold catApply
      rcases hab : JKVs.find? kvs "abbreviation" with _ | v <;> rw [hab] at h1
      · rcases hnm : JKVs.find? kvs "name" with _ | w <;> rw [hnm] at h2
        · simp [jget, hab, hnm, truthy, asStrUpper, bind, Except.bind, pure, Except.pure]
          all_goals split <;> (try split) <;> (try split) <;> exact ⟨_, _, _, rfl⟩
        · cases w <;> simp_all [jget, hab, hnm, truthy, asStrUpper, bind, Except.bind,
            pure, Except.pure]
          all_goals split <;> (try split) <;> (try split) <;> exact ⟨_, _, _, rfl⟩
      · cases v <;> simp_all [jget, hab, truthy, asStrUpper, bind, Except.bind, pure,
          Except.pure]
        · rcases hnm : JKVs.find? kvs "name" with _ | w <;> rw [hnm] at h2
          · simp [jget, hnm, truthy, asStrUpper, bind, Except.bind, pure, Except.pure]
            all_goals split <;> (try split) <;> (try split) <;> exact ⟨_, _, _, rfl⟩
          · cases w <;> simp_all [jget, hnm, truthy, asStrUpper, bind, Except.bind,
              pure, Except.pure]
            all_goals split <;> (try split) <;> (try split) <;> exact ⟨_, _, _, rfl⟩
        · rename_i str
          by_cases hstr : str = ""
          · subst hstr
            rcases hnm : JKVs.find? kvs "name" with _ | w <;> rw [hnm] at h2
            · simp [jget, hnm, truthy, asStrUpper, bind, Except.bind, pure, Except.pure]
              all_goals split <;> (try split) <;> (try split) <;> exact ⟨_, _, _, rfl⟩
            · cases w <;> simp_all [jget, hnm, truthy, asStrUpper, bind, Except.bind,
                pure, Except.pure]
              all_goals split <;> (try split) <;> (try split) <;> exact ⟨_, _, _, rfl⟩
          · simp [jget, truthy, hstr, asStrUpper, bind, Except.bind, pure, Except.pure]
            all_goals split <;> (try split) <;> (try split) <;> exact ⟨_, _, _, rfl⟩
  | null => simp [wfCat] at hc
  | b x => simp [wfCat] at hc
  | i x => simp [wfCat] at hc
  | s x => simp [wfCat] at hc
  | arr xs => simp [wfCat] at hc

theorem athName_ok (kvs : JKVs) (h : wfAthField kvs = true) :
    ∃ nm, athName (.obj kvs) = .ok nm := by
  unfold wfAthField at h
  unfold athName
  rcases hf : JKVs.find? kvs "athlete" with _ | v <;> rw [hf] at h
  · exact ⟨.s "Unknown", by simp [jget, hf, bind, Except.bind, JKVs.find?]⟩
  · cases v <;> simp_all [jget, hf, bind, Except.bind]

theorem safe_ok (v : JVal) (hv : wfStats v = true) (i : Int) : ∃ n, _safe v i = .ok n := by
  unfold _safe
  split
  · exact ⟨0, rfl⟩
  · rename_i hneg
    cases v with
    | arr xs =>
        simp only [pyLen, bind, Except.bind]
        split
        · rename_i hlt
          cases hg : xs.toList.get? i.toNat with
          | none =>
              rw [List.get?_eq_none] at hg
              omega
          | some x =>
              rw [List.get?_eq_getElem?] at hg
              exact ⟨_to_int x, by simp [jindexNat, hg, bind, Except.bind]⟩
        · exact ⟨0, rfl⟩
    | s str =>
        simp only [pyLen, bind, Except.bind]
        split
        · rename_i hlt
          cases hg : str.data.get? i.toNat with
          | none =>
              rw [List.get?_eq_none] at hg
              simp only [String.length] at hlt
              omega
          | some c =>
              rw [List.get?_eq_getElem?] at hg
              exact ⟨_to_int (.s (String.mk [c])), by simp [jindexNat, hg, bind, Except.bind]⟩
        · exact ⟨0, rfl⟩
    | null => simp [wfStats] at hv
    | b x => simp [wfStats] at hv
    | i x => simp [wfStats] at hv
    | obj kvs => simp [wfStats] at hv

theorem collectAAth_ok (i j k : Int) (a : JVal) (ha : wfAthA a = true) :
    ∃ p, collectAAth i j k a = .ok p := by
  cases a with
  | obj kvs =>
      simp only [wfAthA, Bool.and_eq_true] at ha
      obtain ⟨h1, h2⟩ := ha
      obtain ⟨nm, hnm⟩ := athName_ok kvs h2
      have hraw : wfStats ((JKVs.find? kvs "stats").getD (.arr .nil)) = true := by
        rcases hf : JKVs.find? kvs "stats" with _ | v <;> rw [hf] at h1 <;>
          simp_all [wfStats]
      obtain ⟨p1, hp1⟩ := safe_ok _ hraw i
      obtain ⟨p2, hp2⟩ := safe_ok _ hraw j
      obtain ⟨p3, hp3⟩ := safe_ok _ hraw k
      refine ⟨⟨nm, p1, p2, p3⟩, ?_⟩
      simp [collectAAth, jget, bind, Except.bind, hnm, hp1, hp2, hp3, pure, Except.pure]
  | null => simp [wfAthA] at ha
  | b x => simp [wfAthA] at ha
  | i x => simp [wfAthA] at ha
  | s x => simp [wfAthA] at ha
  | arr xs => simp [wfAthA] at ha

theorem collectBPly_ok (p : JVal) (hp : wfPlyB p = true) : ∃ pl, collectBPly p = .ok pl := by
  cases p with
  | obj kvs =>
      simp only [wfPlyB, Bool.and_eq_true] at hp
      obtain ⟨h1, h2⟩ := hp
      obtain ⟨nm, hnm⟩ := athName_ok kvs h2
      unfold collectBPly
      rcases hst : JKVs.find? kvs "statistics" with _ | v <;> rw [hst] at h1
      · refine ⟨⟨nm, 0, 0, 0⟩, ?_⟩
        simp [jget, hst, jiter, JList.toList, foldME, bind, Except.bind, hnm, pure,
          Except.pure]
      · cases v with
        | arr xs =>
            have hall : ∀ b x, x ∈ xs.toList → ∃ b', catApply b x = .ok b' := by
              intro b x hx
              exact catApply_ok b x (by
                rw [List.all_eq_true] at h1
                exact h1 x hx)
            obtain ⟨vals, hv⟩ := foldME_ok_of_forall catApply xs.toList hall
              ((0, 0, 0) : Int × Int × Int)
            simp only [Prod.mk_zero_zero] at hv
            refine ⟨⟨nm, vals.1, vals.2.1, vals.2.2⟩, ?_⟩
            simp [jget, hst, jiter, bind, Except.bind, hnm, hv, pure, Except.pure]
        | null => simp at h1
        | b x => simp at h1
        | i x => simp at h1
        | s x => simp at h1
        | obj k2 => simp at h1
  | null => simp [wfPlyB] at hp
  | b x => simp [wfPlyB] at hp
  | i x => simp [wfPlyB] at hp
  | s x => simp [wfPlyB] at hp
  | arr xs => simp [wfPlyB] at hp

theorem mapME_asStrUpper_ok (l : List JVal) (h : ∀ x ∈ l, ∃ s, x = JVal.s s) :
    ∃ cols, mapME asStrUpper l = .ok cols := by
  apply mapME_ok_of_forall
  intro x hx
  obtain ⟨s, rfl⟩ := h x hx
  exact ⟨pyUpper s, rfl⟩

theorem collectA_ok (block : JKVs) (hb : wfBlockA block = true) :
    ∃ ps, collectA block = .ok ps := by
  simp only [wfBlockA, Bool.and_eq_true] at hb
  obtain ⟨h1, h2⟩ := hb
  rcases hath : JKVs.find? block "athletes" with _ | av <;> rw [hath] at h2
  · exact absurd h2 (by simp)
  · cases av with
    | arr axs =>
        have hallA : ∀ i j k : Int, ∀ x ∈ axs.toList, ∃ p, collectAAth i j k x = .ok p := by
          intro i j k x hx
          refine collectAAth_ok i j k x ?_
          rw [List.all_eq_true] at h2
          exact h2 x hx
        unfold collectA
        rcases hn : JKVs.find? block "names" with _ | nv <;> rw [hn] at h1
        · obtain ⟨ps, hps⟩ := mapME_ok_of_forall
            (collectAAth (_lookup [] "pts") (_lookup [] "reb") (_lookup [] "ast"))
            axs.toList (hallA _ _ _)
          exact ⟨ps, by simp [jget, hn, hath, jiter, jindexS, JList.toList, mapME, bind,
            Except.bind, hps]⟩
        · cases nv with
          | arr nxs =>
              obtain ⟨cols, hcols⟩ := mapME_asStrUpper_ok nxs.toList (by
                intro x hx
                rw [List.all_eq_true] at h1
                have := h1 x hx
                cases x <;> simp_all [wfHeaderElem])
              obtain ⟨ps, hps⟩ := mapME_ok_of_forall
                (collectAAth (_lookup cols "pts") (_lookup cols "reb") (_lookup cols "ast"))
                axs.toList (hallA _ _ _)
              exact ⟨ps, by simp [jget, hn, hath, jiter, jindexS, bind, Except.bind,
                hcols, hps]⟩
          | s str =>
              obtain ⟨cols, hcols⟩ := mapME_asStrUpper_ok
                (str.data.map fun c => JVal.s (String.mk [c])) (by
                  intro x hx
                  obtain ⟨c, _, rfl⟩ := List.mem_map.mp hx
                  exact ⟨_, rfl⟩)
              obtain ⟨ps, hps⟩ := mapME_ok_of_forall
                (collectAAth (_lookup cols "pts") (_lookup cols "reb") (_lookup cols "ast"))
                axs.toList (hallA _ _ _)
              exact ⟨ps, by simp [jget, hn, hath, jiter, jindexS, bind, Except.bind,
                hcols, hps]⟩
          | obj okvs =>
              obtain ⟨cols, hcols⟩ := mapME_asStrUpper_ok ((JKVs.keys okvs).map JVal.s) (by
                intro x hx
                obtain ⟨c, _, rfl⟩ := List.mem_map.mp hx
                exact ⟨_, rfl⟩)
              obtain ⟨ps, hps⟩ := mapME_ok_of_forall
                (collectAAth (_lookup cols "pts") (_lookup cols "reb") (_lookup cols "ast"))
                axs.toList (hallA _ _ _)
              exact ⟨ps, by simp [jget, hn, hath, jiter, jindexS, bind, Except.bind,
                hcols, hps]⟩
          | null => simp at h1
          | b x => simp at h1
          | i x => simp at h1
    | null => simp at h2
    | b x => simp at h2
    | i x => simp at h2
    | s str => simp at h2
    | obj k2 => simp at h2

theorem dataNonempty_of_ne_empty (str : String) (h : str ≠ "") : str.data ≠ [] := by
  intro hd
  apply h
  cases str
  simp_all

theorem collectRoster_ok (r : JVal) (hr : wfRoster r = true) :
    ∃ ps, collectRoster r = .ok ps := by
  cases r with
  | arr xs =>
      simp only [wfRoster] at hr
      obtain ⟨ps, hps⟩ := mapME_ok_of_forall collectBPly xs.toList (by
        intro x hx
        refine collectBPly_ok x ?_
        rw [List.all_eq_true] at hr
        exact hr x hx)
      exact ⟨ps, by simp [collectRoster, rosterElse, hps]⟩
  | obj kvs =>
      simp only [wfRoster] at hr
      unfold collectRoster
      rcases hst : JKVs.find? kvs "statistics" with _ | st <;> simp only [hst] at hr ⊢
      · exact ⟨[], rfl⟩
      · by_cases ht : truthy st = true
        · rw [if_pos ht]
          rw [if_pos ht] at hr
          cases st with
          | s str =>
              have hd : str.data ≠ [] := by
                apply dataNonempty_of_ne_empty
                intro he
                rw [he] at ht
                simp [truthy] at ht
              cases hdd : str.data with
              | nil => exact absurd hdd hd
              | cons c cs =>
                  exact ⟨[], by simp [jindex0, hdd, bind, Except.bind, rosterElse]⟩
          | arr sxs =>
              dsimp only at hr
              cases hss : sxs.toList with
              | nil =>
                  exfalso
                  cases sxs with
                  | nil => simp [truthy] at ht
                  | cons a b => simp [JList.toList] at hss
              | cons first rest =>
                  rw [hss] at hr
                  cases first with
                  | obj block =>
                      dsimp only at hr
                      rcases hav : JKVs.find? block "athletes" with _ | av <;>
                        rw [hav] at hr
                      · exact ⟨[], by simp [jindex0, hss, bind, Except.bind, hav,
                          rosterElse, truthy]⟩
                      · dsimp only at hr
                        by_cases htv : truthy av = true
                        · rw [if_pos htv] at hr
                          obtain ⟨ps, hps⟩ := collectA_ok block hr
                          exact ⟨ps, by simp [jindex0, hss, bind, Except.bind, hav, htv,
                            hps]⟩
                        · simp only [Bool.not_eq_true] at htv
                          exact ⟨[], by simp [jindex0, hss, bind, Except.bind, hav, htv,
                            rosterElse]⟩
                  | null => exact ⟨[], by simp [jindex0, hss, bind, Except.bind, rosterElse]⟩
                  | b x => exact ⟨[], by simp [jindex0, hss, bind, Except.bind, rosterElse]⟩
                  | i x => exact ⟨[], by simp [jindex0, hss, bind, Except.bind, rosterElse]⟩
                  | s x => exact ⟨[], by simp [jindex0, hss, bind, Except.bind, rosterElse]⟩
                  | arr x => exact ⟨[], by simp [jindex0, hss, bind, Except.bind, rosterElse]⟩
          | null => simp [truthy] at ht
          | b x => simp_all
          | i x => simp_all
          | obj k2 => simp_all
        · simp only [Bool.not_eq_true] at ht
          rw [ht]
          simp only [Bool.false_eq_true, if_false]
          exact ⟨[], rfl⟩
  | null => exact ⟨[], rfl⟩
  | b x => exact ⟨[], rfl⟩
  | i x => exact ⟨[], rfl⟩
  | s str => exact ⟨[], rfl⟩

theorem claim2_extractor_total (box : JVal) (h : wfBox box = true) :
    ∃ lines, _collect_players box = .ok lines := by
  cases box with
  | obj kvs =>
      simp only [wfBox] at h
      unfold _collect_players
      rcases hp : JKVs.find? kvs "players" with _ | v <;> rw [hp] at h
      · exact ⟨[], by simp [jget, hp, jiter, JList.toList, mapME, bind, Except.bind]⟩
      · cases v with
        | arr xs =>
            obtain ⟨lss, hlss⟩ := mapME_ok_of_forall collectRoster xs.toList (by
              intro x hx
              refine collectRoster_ok x ?_
              rw [List.all_eq_true] at h
              exact h x hx)
            exact ⟨lss.flatten, by simp [jget, hp, jiter, bind, Except.bind, hlss]⟩
        | s str =>
            obtain ⟨lss, hlss⟩ := mapME_ok_of_forall collectRoster
              (str.data.map fun c => JVal.s (String.mk [c])) (by
                intro x hx
                obtain ⟨c, _, rfl⟩ := List.mem_map.mp hx
                exact ⟨[], rfl⟩)
            exact ⟨lss.flatten, by simp [jget, hp, jiter, bind, Except.bind, hlss]⟩
        | obj okvs =>
            obtain ⟨lss, hlss⟩ := mapME_ok_of_forall collectRoster
              ((JKVs.keys okvs).map JVal.s) (by
                intro x hx
                obtain ⟨c, _, rfl⟩ := List.mem_map.mp hx
                exact ⟨[], rfl⟩)
            exact ⟨lss.flatten, by simp [jget, hp, jiter, bind, Except.bind, hlss]⟩
        | null => simp at h
        | b x => simp at h
        | i x => simp at h
  | null => simp [wfBox] at h
  | b x => simp [wfBox] at h
  | i x => simp [wfBox] at h
  | s x => simp [wfBox] at h
  | arr xs => simp [wfBox] at h

/-- The boxscore that breaks C2: a roster dict whose statistics field is a
(truthy) dict makes `roster["statistics"][0]` raise KeyError. -/
def dictStatsBox : JVal :=
  .obj (.cons "players"
    (.arr (.cons (.obj (.cons "statistics" (.obj (.cons "x" (.i 1) .nil)) .nil)) .nil)) .nil)

/-- C2 counterexample: an unrecognized boxscore shape the claim explicitly
covers (statistics held in a dict) raises instead of degrading. -/
theorem claim2_total_counterexample :
    _collect_players dictStatsBox = .error .keyError := by rfl

/-- A well-formed mixed document: one Format A roster, one Format B roster
and one unrecognized (skipped) roster entry. -/
def wfDocExample : JVal :=
  .obj (.cons "players" (.arr (jlOf
    [.obj (.cons "statistics" (.arr (.cons (.obj (.cons "names"
        (.arr (.cons (.s "PTS") .nil))
        (.cons "athletes" (.arr (.cons (.obj (.cons "athlete"
          (.obj (.cons "displayName" (.s "H") .nil))
          (.cons "stats" (.arr (.cons (.s "33") .nil)) .nil))) .nil)) .nil)))
        .nil)) .nil),
     .arr (.cons (.obj (.cons "statistics" (.arr (.cons (.obj
        (.cons "abbreviation" (.s "AST") (.cons "value" (.s "7") .nil))) .nil))
        (.cons "athlete" (.obj (.cons "displayName" (.s "K") .nil)) .nil))) .nil),
     .i 7])) .nil)

theorem claim2_extractor_total_witness :
    wfBox wfDocExample = true ∧
    (∃ lines, _collect_players wfDocExample = .ok lines) ∧
    _collect_players wfDocExample = .ok [⟨.s "H", 33, 0, 0⟩, ⟨.s "K", 0, 0, 7⟩] :=
  ⟨by decide, claim2_extractor_total wfDocExample (by decide), by rfl⟩
